

import Mathlib

/-!
Verification development for the `astrbot_plugin_picture_manager` plugin
(`main.py`).  The Python source is shallowly embedded: pure helpers become
Lean functions on `List Char` / `String`, JSON payloads become an inductive
`Json` type, the in-memory trigger registry becomes a structure of ordered
association lists (Python dicts preserve insertion order), and the HTTP
transport is modelled as a function from URL to an optional response
(`none` models a raised transport error).  Fallible Python code is modelled
with `Option`/`Except`.
-/

set_option maxRecDepth 4000

/-! ## Basic string helpers (Python semantics, kernel-reducible) -/

/-- Substring test: Python's `needle in hay` for strings. -/
def isInfixL (needle hay : List Char) : Bool :=
  hay.tails.any (fun t => needle.isPrefixOf t)

/-- Python `needle in hay` on `String`. -/
def containsSub (needle hay : String) : Bool :=
  isInfixL needle.data hay.data

/-- Python `str.lower()` (ASCII case folding, as `Char.toLower`). -/
def pyLower (s : String) : String :=
  String.mk (s.data.map Char.toLower)

/-- Python `str.startswith(pre)`. -/
def strStarts (s pre : String) : Bool :=
  pre.data.isPrefixOf s.data

/-- ASCII whitespace stripped by Python `str.strip()` (non-ASCII Unicode
whitespace is not modelled; no claim depends on it). -/
def isPyWs (c : Char) : Bool :=
  c = ' ' || c = '\t' || c = '\n' || c = '\r' || c = '\x0b' || c = '\x0c'

/-- Python `str.strip()` on a character list. -/
def pyStripL (l : List Char) : List Char :=
  ((l.dropWhile isPyWs).reverse.dropWhile isPyWs).reverse

/-- Python `str.strip()` on `String`. -/
def pyStripS (s : String) : String :=
  String.mk (pyStripL s.data)

/-- Python `str.splitlines()`: splits on `\n`, `\r\n` and `\r`
(the rarer control separators `\x0b`, `\x0c`, `\x1c`-`\x1e`, `\x85`,
U+2028/U+2029 are not modelled; no claim depends on them). -/
def pySplitlinesAux : List Char → List Char → List (List Char)
  | [], acc => if acc.isEmpty then [] else [acc.reverse]
  | '\r' :: '\n' :: rest, acc => acc.reverse :: pySplitlinesAux rest []
  | '\n' :: rest, acc => acc.reverse :: pySplitlinesAux rest []
  | '\r' :: rest, acc => acc.reverse :: pySplitlinesAux rest []
  | c :: rest, acc => pySplitlinesAux rest (c :: acc)

/-- Python `str.splitlines()`. -/
def pySplitlines (l : List Char) : List (List Char) :=
  pySplitlinesAux l []

/-- Join a list of strings with a separator (kernel-reducible
`str.join`). -/
def joinSep (sep : String) : List String → String
  | [] => ""
  | [x] => x
  | x :: xs => x ++ sep ++ joinSep sep xs

/-- Concatenate a list of strings. -/
def strConcat : List String → String
  | [] => ""
  | x :: xs => x ++ strConcat xs

/-! ## JSON values

Payloads parsed from HTTP bodies.  JSON numbers are modelled as integers;
no claim depends on float formatting.  Objects are ordered key/value lists,
as Python dicts preserve insertion order. -/

inductive Json where
  | null
  | bool (b : Bool)
  | num (n : Int)
  | str (s : String)
  | arr (items : List Json)
  | obj (fields : List (String × Json))

/-- Python `key in dict`. -/
def jHasKey (kvs : List (String × Json)) (k : String) : Bool :=
  kvs.any (fun kv => kv.1 == k)

/-- Python `dict.get(k, d)` / `dict[k]` (first binding wins; parsed JSON
objects have unique keys). -/
def jGetD (kvs : List (String × Json)) (k : String) (d : Json) : Json :=
  match kvs.find? (fun kv => kv.1 == k) with
  | some kv => kv.2
  | none => d

/-! ### `json.dumps(..., ensure_ascii=False, indent=2)` -/

/-- Lowercase hex digit. -/
def hexDigit (n : Nat) : Char :=
  if n < 10 then Char.ofNat (48 + n) else Char.ofNat (87 + n)

/-- JSON string escaping as `json.dumps` performs it with
`ensure_ascii=False`. -/
def jsonEscapeChar (c : Char) : String :=
  if c = '"' then "\\\""
  else if c = '\\' then "\\\\"
  else if c = '\n' then "\\n"
  else if c = '\r' then "\\r"
  else if c = '\t' then "\\t"
  else if c = '\x08' then "\\b"
  else if c = '\x0c' then "\\f"
  else if c.toNat < 32 then "\\u00" ++ String.mk [hexDigit (c.toNat / 16), hexDigit (c.toNat % 16)]
  else String.singleton c

/-- A JSON-quoted string literal. -/
def jsonQuote (s : String) : String :=
  "\"" ++ strConcat (s.data.map jsonEscapeChar) ++ "\""

/-- `2 * lvl` spaces of indentation (`indent=2`). -/
def indentStr (lvl : Nat) : String :=
  String.mk (List.replicate (2 * lvl) ' ')

mutual

/-- `json.dumps(j, ensure_ascii=False, indent=2)` at nesting level
`lvl`. -/
def json_dumps_at : Json → Nat → String
  | .null, _ => "null"
  | .bool true, _ => "true"
  | .bool false, _ => "false"
  | .num n, _ => toString n
  | .str s, _ => jsonQuote s
  | .arr [], _ => "[]"
  | .arr (x :: xs), lvl =>
      "[\n" ++ joinSep ",\n" (json_dumps_list (x :: xs) (lvl + 1)) ++ "\n" ++ indentStr lvl ++ "]"
  | .obj [], _ => "\x7b\x7d"
  | .obj (kv :: kvs), lvl =>
      "\x7b\n" ++ joinSep ",\n" (json_dumps_obj (kv :: kvs) (lvl + 1)) ++ "\n" ++ indentStr lvl ++ "\x7d"

/-- Rendered array elements, one string per element. -/
def json_dumps_list : List Json → Nat → List String
  | [], _ => []
  | x :: xs, lvl => (indentStr lvl ++ json_dumps_at x lvl) :: json_dumps_list xs lvl

/-- Rendered object entries, one string per entry. -/
def json_dumps_obj : List (String × Json) → Nat → List String
  | [], _ => []
  | kv :: kvs, lvl => (indentStr lvl ++ jsonQuote kv.1 ++ ": " ++ json_dumps_at kv.2 lvl) :: json_dumps_obj kvs lvl

end

/-- `json.dumps(j, ensure_ascii=False, indent=2)`. -/
def json_dumps (j : Json) : String :=
  json_dumps_at j 0

/-! ### Python `str()` of a JSON value (for the f-string in the hitokoto
branch).  Scalars are exact; for containers Python falls back to `repr`,
modelled here with single-quoted strings and backslash escaping (`repr`'s
alternate quote selection is not modelled; every claim only exercises
string-valued fields). -/

/-- Escaping inside a single-quoted Python `repr` string. -/
def pyReprEscape (c : Char) : String :=
  if c = '\\' then "\\\\"
  else if c = '\x27' then "\\\x27"
  else String.singleton c

/-- A single-quoted Python `repr` string literal. -/
def pyReprStrLit (s : String) : String :=
  "\x27" ++ strConcat (s.data.map pyReprEscape) ++ "\x27"

mutual

/-- Python `str(v)` for a JSON payload value. -/
def pyStr : Json → String
  | .str s => s
  | .num n => toString n
  | .bool true => "True"
  | .bool false => "False"
  | .null => "None"
  | .arr xs => "[" ++ joinSep ", " (pyReprList xs) ++ "]"
  | .obj kvs => "\x7b" ++ joinSep ", " (pyReprObj kvs) ++ "\x7d"

/-- Python `repr(v)` for a JSON payload value. -/
def pyRepr : Json → String
  | .str s => pyReprStrLit s
  | .num n => toString n
  | .bool true => "True"
  | .bool false => "False"
  | .null => "None"
  | .arr xs => "[" ++ joinSep ", " (pyReprList xs) ++ "]"
  | .obj kvs => "\x7b" ++ joinSep ", " (pyReprObj kvs) ++ "\x7d"

/-- `repr` of list elements. -/
def pyReprList : List Json → List String
  | [] => []
  | x :: xs => pyRepr x :: pyReprList xs

/-- `repr` of dict entries. -/
def pyReprObj : List (String × Json) → List String
  | [] => []
  | kv :: kvs => (pyReprStrLit kv.1 ++ ": " ++ pyRepr kv.2) :: pyReprObj kvs

end

/-! ## `_parse_json_response` (main.py lines 928-957) -/

/-- The guard `'data' in data and isinstance(data['data'], dict)`:
returns the nested dict when it applies. -/
def jDataDict (kvs : List (String × Json)) : Option (List (String × Json)) :=
  match kvs.find? (fun kv => kv.1 == "data") with
  | some kv =>
      match kv.2 with
      | .obj sub => some sub
      | _ => none
  | none => none

/-- `isinstance(value, str) and value.strip()`. -/
def jIsNonemptyStr (v : Json) : Bool :=
  match v with
  | .str s => pyStripS s != ""
  | _ => false

/-- `_parse_json_response`: extracts display text from a JSON payload.
Returns a `Json` value because the Python function returns the raw field
value (`data['text']` and friends), which need not be a string. -/
def parse_json_response : Json → Json
  | .obj kvs =>
    if jHasKey kvs "hitokoto" && jHasKey kvs "from" then
      .str (pyStr (jGetD kvs "hitokoto" .null) ++ "\n—— " ++ pyStr (jGetD kvs "from" (.str "未知")))
    else if jHasKey kvs "text" then jGetD kvs "text" .null
    else if jHasKey kvs "content" then jGetD kvs "content" .null
    else
      match jDataDict kvs with
      | some sub =>
        if jHasKey sub "text" then jGetD sub "text" .null
        else if jHasKey sub "content" then jGetD sub "content" .null
        else .str (json_dumps (.obj kvs))
      | none =>
        if jHasKey kvs "msg" then jGetD kvs "msg" .null
        else
          match kvs.find? (fun kv => jIsNonemptyStr kv.2) with
          | some kv => kv.2
          | none => .str (json_dumps (.obj kvs))
  | .arr (x :: _) => parse_json_response x
  | j => .str (json_dumps j)

/-- Concrete payload refuting C3's priority chain: `data` is present and a
dict but holds neither `text` nor `content`, and a `msg` field follows. -/
def c3cx : Json := Json.obj [("data", Json.obj []), ("msg", Json.str "m")]

/-! ## `_split_long_text` (main.py lines 216-235)

Text is modelled as `List Char` (Python strings are sequences of code
points).  The Python `while` loop is modelled with explicit fuel; fuel
`text.length + 1` is sufficient because `start` strictly increases on every
iteration whenever `max_length ≥ 1` (with `max_length = 0` the Python loop
does not terminate; every claim uses the limit 1500). -/

/-- The separator set `['\n', '。', '.', ' ']`. -/
def isSplitChar (c : Char) : Bool :=
  c = '\n' || c = '。' || c = '.' || c = ' '

/-- The inner scan `for split_point in range(end, start, -1)`: the first
index, counting down from `sp` to `start + 1`, that is in bounds and holds
a separator character. -/
def findSplit (text : List Char) (start : Nat) : Nat → Option Nat
  | 0 => none
  | sp + 1 =>
    if sp + 1 ≤ start then none
    else if sp + 1 < text.length && isSplitChar (text.getD (sp + 1) ' ') then some (sp + 1)
    else findSplit text start sp

/-- The end index chosen for the window starting at `start`: the tentative
`end = start + max_length`, adjusted to `split_point + 1` when the scan
finds a separator (the adjustment only happens while `end < len(text)`). -/
def splitEnd (text : List Char) (maxLength start : Nat) : Nat :=
  if start + maxLength < text.length then
    match findSplit text start (start + maxLength) with
    | some sp => sp + 1
    | none => start + maxLength
  else start + maxLength

/-- The `while start < len(text)` loop, with fuel. -/
def splitLoop (text : List Char) (maxLength : Nat) : Nat → Nat → List (List Char)
  | 0, _ => []
  | fuel + 1, start =>
    if start < text.length then
      ((text.drop start).take (splitEnd text maxLength start - start))
        :: splitLoop text maxLength fuel (splitEnd text maxLength start)
    else []

/-- `_split_long_text(text, max_length)`. -/
def split_long_text (text : List Char) (maxLength : Nat) : List (List Char) :=
  if text.length ≤ maxLength then [text]
  else splitLoop text maxLength (text.length + 1) 0

/-- A 2000-character text whose character at index 1500 is a space:
1500 `a`s, one space, 499 `b`s. -/
def c4text : List Char := List.replicate 1500 'a' ++ ' ' :: List.replicate 499 'b'

/-! ## `_determine_media_type` (main.py lines 1021-1038)

Needs models of `urllib.parse.urlparse(url).path`, `os.path.splitext`
(POSIX) and `mimetypes.guess_type`. -/

/-- Characters allowed in a URL scheme (letters, digits, `+`, `-`, `.`),
CPython's `scheme_chars`. -/
def isSchemeChar (c : Char) : Bool :=
  c.isAlpha || c.isDigit || c = '+' || c = '-' || c = '.'

/-- CPython `urlsplit` scheme removal: the text before the first `:` is a
scheme when it is non-empty, starts with an ASCII letter and consists of
scheme characters only. -/
def stripUrlScheme (u : List Char) : List Char :=
  let pre := u.takeWhile (fun c => !(c == ':'))
  if pre.length < u.length && !pre.isEmpty
      && (pre.headD 'a').isAlpha && pre.all isSchemeChar then
    u.drop (pre.length + 1)
  else u

/-- CPython `_splitnetloc`: after a leading `//`, the netloc extends to the
next `/`, `?` or `#`; the remainder (starting at that delimiter) is kept. -/
def stripNetloc (u : List Char) : List Char :=
  match u with
  | '/' :: '/' :: rest =>
      rest.drop (rest.takeWhile (fun c => !(c == '/') && !(c == '?') && !(c == '#'))).length
  | _ => u

/-- Keep everything before the first occurrence of `ch`
(Python `url.split(ch, 1)[0]`, identity when `ch` is absent). -/
def takeBefore (u : List Char) (ch : Char) : List Char :=
  u.takeWhile (fun c => !(c == ch))

/-- CPython `_splitparams` (invoked only when `;` occurs): when the text
contains a `/`, only a `;` inside the last segment splits parameters off;
otherwise the first `;` does. -/
def splitParams (p : List Char) : List Char :=
  if p.contains ';' then
    if p.contains '/' then
      let seg := (p.reverse.takeWhile (fun c => !(c == '/'))).reverse
      if seg.contains ';' then
        p.take (p.length - seg.length) ++ seg.takeWhile (fun c => !(c == ';'))
      else p
    else p.takeWhile (fun c => !(c == ';'))
  else p

/-- `urllib.parse.urlparse(url).path`. -/
def urlparse_path (url : String) : List Char :=
  splitParams (takeBefore (takeBefore (stripNetloc (stripUrlScheme url.data)) '#') '?')

/-- `os.path.splitext` (POSIX), returning the extension including its dot:
the part of the basename from its last `.`, unless every character before
that dot is itself a dot (leading-dot filenames have no extension). -/
def posix_splitext (p : List Char) : List Char :=
  let base := (p.reverse.takeWhile (fun c => !(c == '/'))).reverse
  let extRev := base.reverse.takeWhile (fun c => !(c == '.'))
  if extRev.length = base.length then []
  else
    let stem := base.take (base.length - extRev.length - 1)
    if stem.all (fun c => c == '.') then [] else '.' :: extRev.reverse

/-- `os.path.splitext(urllib.parse.urlparse(url).path)[1].lower()`. -/
def url_extension (url : String) : String :=
  String.mk ((posix_splitext (urlparse_path url)).map Char.toLower)

/-- The extension table used by `mimetypes.guess_type`.  Modelled from the
spec: Python reads its MIME database from the interpreter/system
environment; the entries here are the CPython built-in defaults for the
media-relevant and common extensions.  Suffix/encoding maps (`.tgz`,
`.gz`, ...) and `data:` URLs are not modelled; no claim depends on them. -/
def mimeTable : List (String × String) :=
  [(".mp4", "video/mp4"), (".mov", "video/quicktime"), (".avi", "video/x-msvideo"),
   (".webm", "video/webm"), (".mkv", "video/x-matroska"), (".mpeg", "video/mpeg"),
   (".mpg", "video/mpeg"), (".jpg", "image/jpeg"), (".jpeg", "image/jpeg"),
   (".png", "image/png"), (".gif", "image/gif"), (".bmp", "image/bmp"),
   (".webp", "image/webp"), (".svg", "image/svg+xml"), (".ico", "image/vnd.microsoft.icon"),
   (".tif", "image/tiff"), (".tiff", "image/tiff"), (".txt", "text/plain"),
   (".html", "text/html"), (".htm", "text/html"), (".json", "application/json"),
   (".bin", "application/octet-stream"), (".pdf", "application/pdf")]

/-- `urllib.parse._splittype` as used by `guess_type`: strips a leading
`scheme:` where the scheme is any non-empty run without `/` or `:`. -/
def mimeStripType (u : List Char) : List Char :=
  let pre := u.takeWhile (fun c => !(c == '/') && !(c == ':'))
  if pre.length < u.length && u.getD pre.length ' ' == ':' && !pre.isEmpty then
    u.drop (pre.length + 1)
  else u

/-- `mimetypes.guess_type(url)[0]`: splits the extension off the
scheme-stripped URL (query and fragment included, unlike the path-based
extension above) and looks it up case-insensitively. -/
def mime_guess_type (url : String) : Option String :=
  let ext := String.mk ((posix_splitext (mimeStripType url.data)).map Char.toLower)
  (mimeTable.find? (fun kv => kv.1 == ext)).map (fun kv => kv.2)

/-- Message components produced by the plugin (AstrBot `Image`/`Video`,
keyed by the resource URL). -/
inductive Media where
  | image (file : String)
  | video (file : String)
deriving DecidableEq

/-- A message chain as returned by `_determine_media_type` and consumed by
`chain_result` (always a single component in this plugin). -/
abbrev MediaChain := List Media

/-- The video extension list of `_determine_media_type`. -/
def videoExtensions : List String := [".mp4", ".mov", ".avi", ".mkv", ".webm"]

/-- The `if not file_extension:` block of `_determine_media_type`: when
the extension is absent, a MIME guess containing `video`/`image` decides
the type via an early return, modelled as `some`; `none` means control
falls through to the extension check. -/
def mimeGuessStep (url fileExtension : String) : Option MediaChain :=
  if fileExtension = "" then
    match mime_guess_type url with
    | some g =>
      if containsSub "video" g = true then some [Media.video url]
      else if containsSub "image" g = true then some [Media.image url]
      else none
    | none => none
  else none

/-- The final extension check of `_determine_media_type`. -/
def extensionStep (url fileExtension : String) : MediaChain :=
  if videoExtensions.contains fileExtension = true then [Media.video url]
  else [Media.image url]

/-- `_determine_media_type(url, content_type)`. -/
def determine_media_type (url contentType : String) : MediaChain :=
  if containsSub "video" contentType = true then [Media.video url]
  else if containsSub "image" contentType = true then [Media.image url]
  else
    match mimeGuessStep url (url_extension url) with
    | some chain => chain
    | none => extensionStep url (url_extension url)

/-! ## HTTP transport model

`aiohttp` GETs are modelled by a `World` mapping a URL to `none` (the GET
raises a transport error / `aiohttp.ClientError`) or to a response.
`jsonBody = none` models a body on which `response.json()` raises. -/

structure HttpResp where
  status : Nat
  contentType : String
  jsonBody : Option Json
  textBody : String

/-- The network: what a GET (with redirect following) returns per URL. -/
def World := String → Option HttpResp

/-! ## The trigger registry (main.py lines 26-28)

Python dicts keep insertion order; they are modelled as ordered
association lists with unique keys. -/

structure Registry where
  api_list : List (String × List String)
  direct_url_list : List (String × List String)
  text_api_list : List (String × List String)
deriving DecidableEq

/-- Python `trigger in dict`. -/
def hasK (m : List (String × List String)) (k : String) : Bool :=
  m.any (fun kv => kv.1 == k)

/-- Python `dict[k]` (first binding; keys are unique). -/
def getK (m : List (String × List String)) (k : String) : List String :=
  match m.find? (fun kv => kv.1 == k) with
  | some kv => kv.2
  | none => []

/-- Python `dict[k] = v` on an existing key: the binding keeps its
position. -/
def setK (m : List (String × List String)) (k : String) (v : List String) :
    List (String × List String) :=
  m.map (fun kv => if kv.1 == k then (kv.1, v) else kv)

/-- Python `del dict[k]`: other bindings keep their order. -/
def delK (m : List (String × List String)) (k : String) :
    List (String × List String) :=
  m.filter (fun kv => !(kv.1 == k))

/-- The add idiom of the source: `dict[k].append(v)` when the key exists,
else `dict[k] = [v]` (a fresh key lands at the end, per dict insertion
order). -/
def dictAppend (m : List (String × List String)) (k v : String) :
    List (String × List String) :=
  if hasK m k = true then setK m k (getK m k ++ [v])
  else m ++ [(k, [v])]

/-! ## `add_api_or_url` — the `增加看图` command (main.py lines 364-411) -/

inductive AddOutcome where
  | addedDirect
  | addedText
  | addedApi
  | netError
deriving DecidableEq

/-- `add_api_or_url(trigger, url)`: probes `url`; on a 200 response the
`Content-Type` picks the bucket (`image/`/`video/` → direct URLs,
`text/`/`application/json` → text APIs, anything else → media APIs); on a
non-200 response the URL is appended to the *text-API* list; when the GET
raises, nothing is stored.  The returned `Bool` records whether
`save_api_config` ran. -/
def add_api_or_url (w : World) (R : Registry) (trigger url : String) :
    Registry × Bool × AddOutcome :=
  match w url with
  | none => (R, false, .netError)
  | some r =>
    if r.status = 200 then
      let ct := pyLower r.contentType
      if (strStarts ct "image/" || strStarts ct "video/") = true then
        ({R with direct_url_list := dictAppend R.direct_url_list (pyLower trigger) url},
          true, .addedDirect)
      else if (strStarts ct "text/" || strStarts ct "application/json") = true then
        ({R with text_api_list := dictAppend R.text_api_list (pyLower trigger) url},
          true, .addedText)
      else
        ({R with api_list := dictAppend R.api_list (pyLower trigger) url},
          true, .addedApi)
    else
      ({R with text_api_list := dictAppend R.text_api_list (pyLower trigger) url},
        true, .addedText)

/-! ## `modify_api_address` and `delete_api` (main.py lines 428-519) -/

inductive OpOutcome where
  | ok
  | outOfRange
  | notFound
deriving DecidableEq

/-- `modify_api_address(trigger, index, new_url)`; `index` is the 1-based
Python `int` argument.  The `Bool` records whether `save_api_config`
ran. -/
def modify_api_address (R : Registry) (trigger : String) (index : Int) (newUrl : String) :
    Registry × Bool × OpOutcome :=
  if hasK R.api_list (pyLower trigger) = true then
    let l := getK R.api_list (pyLower trigger)
    if 1 ≤ index ∧ index ≤ (l.length : Int) then
      ({R with api_list := setK R.api_list (pyLower trigger) (l.set (index - 1).toNat newUrl)},
        true, .ok)
    else (R, false, .outOfRange)
  else if hasK R.direct_url_list (pyLower trigger) = true then
    let l := getK R.direct_url_list (pyLower trigger)
    if 1 ≤ index ∧ index ≤ (l.length : Int) then
      ({R with direct_url_list := setK R.direct_url_list (pyLower trigger) (l.set (index - 1).toNat newUrl)},
        true, .ok)
    else (R, false, .outOfRange)
  else if hasK R.text_api_list (pyLower trigger) = true then
    let l := getK R.text_api_list (pyLower trigger)
    if 1 ≤ index ∧ index ≤ (l.length : Int) then
      ({R with text_api_list := setK R.text_api_list (pyLower trigger) (l.set (index - 1).toNat newUrl)},
        true, .ok)
    else (R, false, .outOfRange)
  else (R, false, .notFound)

/-- One category's part of `delete_api`: `index = none` deletes the whole
key; a valid index pops the entry and deletes the key when the list
becomes empty. -/
def deleteFromCat (m : List (String × List String)) (t : String) (index : Option Int) :
    Option (List (String × List String)) :=
  match index with
  | none => some (delK m t)
  | some i =>
    let l := getK m t
    if 1 ≤ i ∧ i ≤ (l.length : Int) then
      let l2 := l.eraseIdx (i - 1).toNat
      some (if l2.isEmpty = true then delK m t else setK m t l2)
    else none

/-- `delete_api(trigger, index?)`.  The `Bool` records whether
`save_api_config` ran. -/
def delete_api (R : Registry) (trigger : String) (index : Option Int) :
    Registry × Bool × OpOutcome :=
  if hasK R.api_list (pyLower trigger) = true then
    match deleteFromCat R.api_list (pyLower trigger) index with
    | some m => ({R with api_list := m}, true, .ok)
    | none => (R, false, .outOfRange)
  else if hasK R.direct_url_list (pyLower trigger) = true then
    match deleteFromCat R.direct_url_list (pyLower trigger) index with
    | some m => ({R with direct_url_list := m}, true, .ok)
    | none => (R, false, .outOfRange)
  else if hasK R.text_api_list (pyLower trigger) = true then
    match deleteFromCat R.text_api_list (pyLower trigger) index with
    | some m => ({R with text_api_list := m}, true, .ok)
    | none => (R, false, .outOfRange)
  else (R, false, .notFound)

/-- The category a trigger matches, in the source's lookup order. -/
inductive Cat where
  | api
  | direct
  | text
deriving DecidableEq

/-- Projection of a registry onto one category map. -/
def catMap (R : Registry) : Cat → List (String × List String)
  | .api => R.api_list
  | .direct => R.direct_url_list
  | .text => R.text_api_list

/-- Which category map a (lower-cased) trigger matches, in the source's
order api → direct → text. -/
def matchCat (R : Registry) (t : String) : Option Cat :=
  if hasK R.api_list t = true then some .api
  else if hasK R.direct_url_list t = true then some .direct
  else if hasK R.text_api_list t = true then some .text
  else none

/-- The list a registered trigger maps to (in its matched category). -/
def lookupCat (R : Registry) (t : String) : Option (List String) :=
  match matchCat R t with
  | some c => some (getK (catMap R c) t)
  | none => none

/-- Every per-trigger list in the registry is non-empty. -/
def allNonempty (R : Registry) : Prop :=
  (∀ kv ∈ R.api_list, kv.2 ≠ ([] : List String))
  ∧ (∀ kv ∈ R.direct_url_list, kv.2 ≠ ([] : List String))
  ∧ (∀ kv ∈ R.text_api_list, kv.2 ≠ ([] : List String))

/-! ## C1: registration fallback buckets -/

/-- The empty registry (fresh plugin state). -/
def emptyRegistry : Registry := ⟨[], [], []⟩

/-- A world where `http://u` answers with HTTP 500. -/
def w500 : World := fun u => if u == "http://u" then some ⟨500, "", none, ""⟩ else none

/-- A world where every GET raises a transport error. -/
def wDown : World := fun _ => none

/-- A one-trigger registry for the witnesses. -/
def regOne : Registry := ⟨[("t", ["u1"])], [], []⟩

/-! ## `view_picture` packaging (main.py lines 704-721)

The decision taken after the per-item resolutions: given the requested
count (already clamped to ≥ 1 by `max(1, ...)`) and the list of resolved
media chains, either bundle everything into one forwarded `Nodes` message
or send the first `count` chains as standalone replies. -/

inductive SendResult where
  | noneMsg
  | grouped (nodes : List (String × MediaChain))
  | standalone (chains : List MediaChain)
deriving DecidableEq

/-- `isinstance(chain[0], Image)`.  (Python would raise on an empty chain;
the pipeline only produces non-empty chains.) -/
def isImageChain : MediaChain → Bool
  | Media.image _ :: _ => true
  | _ => false

/-- The `enumerate(..., 1)` loop building `Node` entries: each chain gets
the name `f"{bot_id} - {media_type}{i}"`. -/
def labelNodes (botId : String) : Nat → List MediaChain → List (String × MediaChain)
  | _, [] => []
  | i, c :: rest =>
      (botId ++ " - " ++ (if isImageChain c = true then "图片" else "视频") ++ toString i, c)
        :: labelNodes botId (i + 1) rest

/-- The packaging decision of `view_picture`: nothing resolved → the
"nothing retrieved" reply; `count > 2 or len(media_chains) > 2` → one
grouped message over `media_chains[:max(count, len(media_chains))]`;
otherwise standalone replies for `media_chains[:count]`. -/
def view_picture_package (botId : String) (count : Nat) (chains : List MediaChain) :
    SendResult :=
  if chains.isEmpty = true then .noneMsg
  else if 2 < count ∨ 2 < chains.length then
    .grouped (labelNodes botId 1 (chains.take (max count chains.length)))
  else .standalone (chains.take count)

/-- A resolved image chain for `http://a`. -/
def chA : MediaChain := [Media.image "http://a"]

/-- A resolved image chain for `http://b`. -/
def chB : MediaChain := [Media.image "http://b"]

/-! ## `_fetch_media_from_api` (main.py lines 959-1002)

The whole body sits in one `try`; `Except Unit` models an exception
escaping to the outer handler, which returns `[]`. -/

/-- Python truthiness of a JSON payload value. -/
def pyTruthy : Json → Bool
  | .null => false
  | .bool b => b
  | .num n => n != 0
  | .str s => s != ""
  | .arr xs => !xs.isEmpty
  | .obj kvs => !kvs.isEmpty

/-- Python `'url' in item` for an arbitrary payload item: key lookup for a
dict, substring test for a string, membership for a list; on other types
`in` raises `TypeError`. -/
def jsonContainsKey : Json → String → Except Unit Bool
  | .obj kvs, k => .ok (jHasKey kvs k)
  | .str s, k => .ok (containsSub k s)
  | .arr xs, k => .ok (xs.any (fun x => match x with | .str s => s == k | _ => false))
  | _, _ => .error ()

/-- Python `item.get(k, d)`: only dicts have `.get`; anything else raises
`AttributeError`. -/
def jsonDictGet : Json → String → Json → Except Unit Json
  | .obj kvs, k, d => .ok (jGetD kvs k d)
  | _, _, _ => .error ()

/-- `[item.get('url', '') for item in content if 'url' in item]`, with the
exception escaping when an item supports `in` but not `.get` (or neither). -/
def collectUrls : List Json → Except Unit (List Json)
  | [] => .ok []
  | item :: rest => do
    let b ← jsonContainsKey item "url"
    if b = true then
      let v ← jsonDictGet item "url" (Json.str "")
      let vs ← collectUrls rest
      .ok (v :: vs)
    else
      collectUrls rest

/-- Candidate-URL extraction from the initial API response body, per its
declared content type (JSON array / JSON dict with `url` or `data.url` /
multi-line text / single-line text). -/
def extract_file_urls (r : HttpResp) : Except Unit (List Json) :=
  if containsSub "json" (pyLower r.contentType) = true then
    match r.jsonBody with
    | none => .error ()
    | some content =>
      match content with
      | .arr items => collectUrls items
      | .obj kvs =>
        if pyTruthy (jGetD kvs "url" (Json.str "")) = true then
          .ok [jGetD kvs "url" (Json.str "")]
        else
          match jGetD kvs "data" (Json.obj []) with
          | .obj sub => .ok [jGetD sub "url" (Json.str "")]
          | _ => .error ()
      | _ => .ok []
  else
    let lines := pySplitlines r.textBody.data
    if 1 < lines.length then
      .ok ((lines.filter (fun l =>
          strStarts (String.mk (pyStripL l)) "http://"
          || strStarts (String.mk (pyStripL l)) "https://")).map
        (fun l => Json.str (String.mk (pyStripL l))))
    else .ok [Json.str (pyStripS r.textBody)]

/-- The per-candidate follow-up loop: a candidate that is not an absolute
HTTP(S) string URL is skipped (`continue` after `startswith`, which raises
on a non-string); a follow-up GET that raises propagates the exception; a
non-200 follow-up response only skips this candidate; a 200 response
appends the classified media chain. -/
def resolveCandidates (w : World) : List Json → Except Unit (List MediaChain)
  | [] => .ok []
  | c :: rest =>
    match c with
    | .str s =>
      if (strStarts s "http://" || strStarts s "https://") = true then
        match w s with
        | none => .error ()
        | some r =>
          if r.status ≠ 200 then resolveCandidates w rest
          else do
            let tail ← resolveCandidates w rest
            .ok (determine_media_type s (pyLower r.contentType) :: tail)
      else resolveCandidates w rest
    | _ => .error ()

/-- What one candidate contributes when no exception occurs: its media
chain when its follow-up GET answers 200, nothing otherwise. -/
def resolveOne (w : World) (s : String) : Option MediaChain :=
  if (strStarts s "http://" || strStarts s "https://") = true then
    match w s with
    | none => none
    | some r =>
      if r.status ≠ 200 then none
      else some (determine_media_type s (pyLower r.contentType))
  else none

/-- `_fetch_media_from_api(api_url)`: any escaped exception (transport
error anywhere, unparsable JSON body, malformed item) yields `[]`. -/
def fetch_media_from_api (isEnabled : Bool) (w : World) (apiUrl : String) :
    List MediaChain :=
  if isEnabled = false then []
  else
    match w apiUrl with
    | none => []
    | some r =>
      if r.status ≠ 200 then []
      else
        match extract_file_urls r with
        | .error _ => []
        | .ok us =>
          match resolveCandidates w us with
          | .error _ => []
          | .ok chains => chains

/-- A 200 JSON response listing two candidate URLs. -/
def respJsonTwo : HttpResp :=
  ⟨200, "application/json",
    some (Json.arr [Json.obj [("url", Json.str "http://a")],
                    Json.obj [("url", Json.str "http://b")]]), ""⟩

/-- A 200 image response. -/
def respImage : HttpResp := ⟨200, "image/png", none, ""⟩

/-- World where candidate `http://a` succeeds and `http://b` raises a
transport error. -/
def w8err : World := fun u =>
  if u == "http://api" then some respJsonTwo
  else if u == "http://a" then some respImage
  else none

/-- World where candidate `http://a` succeeds and `http://b` answers
HTTP 404. -/
def w8nf : World := fun u =>
  if u == "http://api" then some respJsonTwo
  else if u == "http://a" then some respImage
  else if u == "http://b" then some (⟨404, "", none, ""⟩ : HttpResp)
  else none

/-! ## `save_api_config` / `load_api_config` (main.py lines 53-83)

File IO is out of scope (spec §1): `save_api_config` is modelled as the
JSON document it writes, and `load_api_config` takes
`none` (the file does not exist), `some none` (the file exists but
`json.load` raises `JSONDecodeError`) or `some (some doc)` (the parsed
document).  Loaded values are kept as JSON payloads, since a legacy
document may hold arbitrary values. -/

/-- One category map serialized: each URL list becomes a JSON array of
strings. -/
def catToJson (m : List (String × List String)) : Json :=
  Json.obj (m.map (fun kv => (kv.1, Json.arr (kv.2.map Json.str))))

/-- The document `save_api_config` writes. -/
def save_api_config (R : Registry) : Json :=
  Json.obj [("api_list", catToJson R.api_list),
            ("direct_url_list", catToJson R.direct_url_list),
            ("text_api_list", catToJson R.text_api_list)]

/-- `v if isinstance(v, list) else [v]`. -/
def normalizeEntry : Json → List Json
  | Json.arr xs => xs
  | v => [v]

/-- The dict comprehension
`{k: v if isinstance(v, list) else [v] for k, v in data.get(key, {}).items()}`
applied to one category value; `none` models the `AttributeError` Python
raises when the value is not a dict (`.items()` missing). -/
def loadCatJson : Json → Option (List (String × List Json))
  | Json.obj kvs => some (kvs.map (fun kv => (kv.1, normalizeEntry kv.2)))
  | _ => none

/-- `data.get(key, {})` followed by the comprehension; `none` also covers
a non-dict top-level document (no `.get`). -/
def loadCat (data : Json) (key : String) : Option (List (String × List Json)) :=
  match data with
  | Json.obj kvs => loadCatJson (jGetD kvs key (Json.obj []))
  | _ => none

/-- The three in-memory maps as `load_api_config` rebuilds them. -/
structure LoadedConfig where
  api_list : List (String × List Json)
  direct_url_list : List (String × List Json)
  text_api_list : List (String × List Json)

/-- Parsing the three categories out of a loaded document. -/
def loadData (j : Json) : Option LoadedConfig :=
  match loadCat j "api_list", loadCat j "direct_url_list", loadCat j "text_api_list" with
  | some a, some d, some t => some ⟨a, d, t⟩
  | _, _, _ => none

/-- `load_api_config`: a missing file and a malformed (JSONDecodeError)
file both leave all three maps empty. -/
def load_api_config : Option (Option Json) → Option LoadedConfig
  | none => some ⟨[], [], []⟩
  | some none => some ⟨[], [], []⟩
  | some (some j) => loadData j

/-- A registry's maps as the loader would represent them (each stored URL
a JSON string). -/
def toJsonVals (m : List (String × List String)) : List (String × List Json) :=
  m.map (fun kv => (kv.1, kv.2.map Json.str))

/-! ## Theorems -/

/-- C3 counterexample: on `{"data": {}, "msg": "m"}` the code returns the
pretty-printed JSON dump of the whole payload, not the `msg` value `"m"`
(nor a first non-empty string field), because the `data`-dict branch
swallows the remaining rules.  The claimed priority chain
"... else nested data.text/data.content; else msg; else first non-empty
string field ..." therefore fails at this input. -/
theorem c3_counterexample :
    parse_json_response c3cx = Json.str (json_dumps c3cx)
    ∧ json_dumps c3cx ≠ "m"
    ∧ jHasKey [("data", Json.obj []), ("msg", Json.str "m")] "msg" = true :=
  ⟨rfl, by decide, rfl⟩

/-- C3 (amended): text extraction follows the code's fixed chain, covering
every arm: a dict with both `hitokoto` and `from` yields the formatted
quote; else the `text` field; else the `content` field; else, when `data`
is present and is a dict, its `text` — else its `content` — else the
pretty-printed JSON dump of the whole payload (the `msg` and first-string
rules are skipped in that case); else the `msg` field; else the first
non-empty string-valued field in iteration order; else the dump.  The
particular examples of the claim hold: `{"hitokoto":"x","from":"y"}`
yields `"x\n—— y"`, `{"text":"hello"}` yields `"hello"`, and a dict
lacking text/content/data but containing `msg` yields the `msg` value. -/
theorem c3_text_extraction :
    (∀ kvs h f, jHasKey kvs "hitokoto" = true → jHasKey kvs "from" = true →
      jGetD kvs "hitokoto" Json.null = Json.str h →
      jGetD kvs "from" (Json.str "未知") = Json.str f →
      parse_json_response (Json.obj kvs) = Json.str (h ++ "\n—— " ++ f))
    ∧ (∀ kvs, (jHasKey kvs "hitokoto" = false ∨ jHasKey kvs "from" = false) →
      jHasKey kvs "text" = true →
      parse_json_response (Json.obj kvs) = jGetD kvs "text" Json.null)
    ∧ (∀ kvs, (jHasKey kvs "hitokoto" = false ∨ jHasKey kvs "from" = false) →
      jHasKey kvs "text" = false → jHasKey kvs "content" = true →
      parse_json_response (Json.obj kvs) = jGetD kvs "content" Json.null)
    ∧ (∀ kvs sub, (jHasKey kvs "hitokoto" = false ∨ jHasKey kvs "from" = false) →
      jHasKey kvs "text" = false → jHasKey kvs "content" = false →
      jDataDict kvs = some sub → jHasKey sub "text" = true →
      parse_json_response (Json.obj kvs) = jGetD sub "text" Json.null)
    ∧ (∀ kvs sub, (jHasKey kvs "hitokoto" = false ∨ jHasKey kvs "from" = false) →
      jHasKey kvs "text" = false → jHasKey kvs "content" = false →
      jDataDict kvs = some sub →
      jHasKey sub "text" = false → jHasKey sub "content" = true →
      parse_json_response (Json.obj kvs) = jGetD sub "content" Json.null)
    ∧ (∀ kvs sub, (jHasKey kvs "hitokoto" = false ∨ jHasKey kvs "from" = false) →
      jHasKey kvs "text" = false → jHasKey kvs "content" = false →
      jDataDict kvs = some sub →
      jHasKey sub "text" = false → jHasKey sub "content" = false →
      parse_json_response (Json.obj kvs) = Json.str (json_dumps (Json.obj kvs)))
    ∧ (∀ kvs, (jHasKey kvs "hitokoto" = false ∨ jHasKey kvs "from" = false) →
      jHasKey kvs "text" = false → jHasKey kvs "content" = false →
      jDataDict kvs = none → jHasKey kvs "msg" = true →
      parse_json_response (Json.obj kvs) = jGetD kvs "msg" Json.null)
    ∧ (∀ kvs kv0, (jHasKey kvs "hitokoto" = false ∨ jHasKey kvs "from" = false) →
      jHasKey kvs "text" = false → jHasKey kvs "content" = false →
      jDataDict kvs = none → jHasKey kvs "msg" = false →
      kvs.find? (fun kv => jIsNonemptyStr kv.2) = some kv0 →
      parse_json_response (Json.obj kvs) = kv0.2)
    ∧ (∀ kvs, (jHasKey kvs "hitokoto" = false ∨ jHasKey kvs "from" = false) →
      jHasKey kvs "text" = false → jHasKey kvs "content" = false →
      jDataDict kvs = none → jHasKey kvs "msg" = false →
      kvs.find? (fun kv => jIsNonemptyStr kv.2) = none →
      parse_json_response (Json.obj kvs) = Json.str (json_dumps (Json.obj kvs)))
    ∧ parse_json_response (Json.obj [("hitokoto", Json.str "x"), ("from", Json.str "y")])
        = Json.str "x\n—— y"
    ∧ parse_json_response (Json.obj [("text", Json.str "hello")]) = Json.str "hello"
    ∧ parse_json_response (Json.obj [("msg", Json.str "mm")]) = Json.str "mm" := by
  refine ⟨?_, ?_, ?_, ?_, ?_, ?_, ?_, ?_, ?_, rfl, rfl, rfl⟩
  · intro kvs h f h1 h2 g1 g2
    simp only [parse_json_response, h1, h2, Bool.and_self, if_true, g1, g2]
    rfl
  · intro kvs h1 h2
    have hb : (jHasKey kvs "hitokoto" && jHasKey kvs "from") = false := by
      cases h1 with
      | inl h => simp [h]
      | inr h => simp [h]
    simp only [parse_json_response, hb, Bool.false_eq_true, if_false, h2, if_true]
  · intro kvs h1 h2 h3
    have hb : (jHasKey kvs "hitokoto" && jHasKey kvs "from") = false := by
      cases h1 with
      | inl h => simp [h]
      | inr h => simp [h]
    simp only [parse_json_response, hb, Bool.false_eq_true, if_false, h2, h3, if_true]
  · intro kvs sub h1 h2 h3 hd hs1
    have hb : (jHasKey kvs "hitokoto" && jHasKey kvs "from") = false := by
      cases h1 with
      | inl h => simp [h]
      | inr h => simp [h]
    simp only [parse_json_response, hb, Bool.false_eq_true, if_false, h2, h3, hd, hs1,
      if_true]
  · intro kvs sub h1 h2 h3 hd hs1 hs2
    have hb : (jHasKey kvs "hitokoto" && jHasKey kvs "from") = false := by
      cases h1 with
      | inl h => simp [h]
      | inr h => simp [h]
    simp only [parse_json_response, hb, Bool.false_eq_true, if_false, h2, h3, hd, hs1,
      hs2, if_true]
  · intro kvs sub h1 h2 h3 hd hs1 hs2
    have hb : (jHasKey kvs "hitokoto" && jHasKey kvs "from") = false := by
      cases h1 with
      | inl h => simp [h]
      | inr h => simp [h]
    simp only [parse_json_response, hb, Bool.false_eq_true, if_false, h2, h3, hd, hs1, hs2]
  · intro kvs h1 h2 h3 hd hm
    have hb : (jHasKey kvs "hitokoto" && jHasKey kvs "from") = false := by
      cases h1 with
      | inl h => simp [h]
      | inr h => simp [h]
    simp only [parse_json_response, hb, Bool.false_eq_true, if_false, h2, h3, hd, hm, if_true]
  · intro kvs kv0 h1 h2 h3 hd hm hf
    have hb : (jHasKey kvs "hitokoto" && jHasKey kvs "from") = false := by
      cases h1 with
      | inl h => simp [h]
      | inr h => simp [h]
    simp only [parse_json_response, hb, Bool.false_eq_true, if_false, h2, h3, hd, hm, hf]
  · intro kvs h1 h2 h3 hd hm hf
    have hb : (jHasKey kvs "hitokoto" && jHasKey kvs "from") = false := by
      cases h1 with
      | inl h => simp [h]
      | inr h => simp [h]
    simp only [parse_json_response, hb, Bool.false_eq_true, if_false, h2, h3, hd, hm, hf]

/-- Witness for C3's theorem at concrete inputs: the hitokoto branch, the
data-dict `text` branch, the msg branch and the first-non-empty-string
branch applied to explicit dicts. -/
theorem c3_text_extraction_witness :
    parse_json_response (Json.obj [("hitokoto", Json.str "h"), ("from", Json.str "f")])
      = Json.str ("h" ++ "\n—— " ++ "f")
    ∧ parse_json_response (Json.obj [("data", Json.obj [("text", Json.str "dt")])])
      = jGetD [("text", Json.str "dt")] "text" Json.null
    ∧ parse_json_response (Json.obj [("a", Json.num 1), ("msg", Json.str "ok")])
      = jGetD [("a", Json.num 1), ("msg", Json.str "ok")] "msg" Json.null
    ∧ parse_json_response (Json.obj [("a", Json.num 1), ("b", Json.str "ok")])
      = (("b", Json.str "ok") : String × Json).2 :=
  ⟨c3_text_extraction.1 [("hitokoto", Json.str "h"), ("from", Json.str "f")] "h" "f"
      rfl rfl rfl rfl,
    c3_text_extraction.2.2.2.1 [("data", Json.obj [("text", Json.str "dt")])]
      [("text", Json.str "dt")] (Or.inl rfl) rfl rfl rfl rfl,
    c3_text_extraction.2.2.2.2.2.2.1 [("a", Json.num 1), ("msg", Json.str "ok")]
      (Or.inl rfl) rfl rfl rfl rfl,
    c3_text_extraction.2.2.2.2.2.2.2.1 [("a", Json.num 1), ("b", Json.str "ok")]
      ("b", Json.str "ok") (Or.inl rfl) rfl rfl rfl rfl rfl⟩

theorem findSplit_some_bounds (text : List Char) (start : Nat) :
    ∀ sp j, findSplit text start sp = some j → start < j ∧ j ≤ sp := by
  intro sp
  induction sp with
  | zero => intro j h; simp [findSplit] at h
  | succ sp ih =>
    intro j h
    simp only [findSplit] at h
    by_cases h1 : sp + 1 ≤ start
    · rw [if_pos h1] at h; cases h
    · rw [if_neg h1] at h
      by_cases h2 : (sp + 1 < text.length && isSplitChar (text.getD (sp + 1) ' ')) = true
      · rw [if_pos h2] at h
        cases h
        exact ⟨by omega, le_refl _⟩
      · rw [if_neg h2] at h
        have := ih j h
        exact ⟨this.1, by omega⟩

theorem splitEnd_gt (text : List Char) (maxLength start : Nat) (hm : 1 ≤ maxLength) :
    start < splitEnd text maxLength start := by
  unfold splitEnd
  by_cases h0 : start + maxLength < text.length
  · rw [if_pos h0]
    cases hfs : findSplit text start (start + maxLength) with
    | none =>
      show start < start + maxLength
      omega
    | some sp =>
      have := findSplit_some_bounds text start _ _ hfs
      show start < sp + 1
      omega
  · rw [if_neg h0]; omega

theorem splitEnd_le (text : List Char) (maxLength start : Nat) :
    splitEnd text maxLength start ≤ start + maxLength + 1 := by
  unfold splitEnd
  by_cases h0 : start + maxLength < text.length
  · rw [if_pos h0]
    cases hfs : findSplit text start (start + maxLength) with
    | none =>
      show start + maxLength ≤ start + maxLength + 1
      omega
    | some sp =>
      have := findSplit_some_bounds text start _ _ hfs
      show sp + 1 ≤ start + maxLength + 1
      omega
  · rw [if_neg h0]; omega

theorem splitLoop_flatten (text : List Char) (maxLength : Nat) (hm : 1 ≤ maxLength) :
    ∀ fuel start, text.length - start < fuel →
      (splitLoop text maxLength fuel start).flatten = text.drop start := by
  intro fuel
  induction fuel with
  | zero => intro start h; omega
  | succ fuel ih =>
    intro start h
    by_cases hs : start < text.length
    · have hgt := splitEnd_gt text maxLength start hm
      have hih := ih (splitEnd text maxLength start) (by omega)
      simp only [splitLoop, if_pos hs, List.flatten_cons, hih]
      have hde : text.drop (splitEnd text maxLength start)
          = (text.drop start).drop (splitEnd text maxLength start - start) := by
        rw [List.drop_drop]
        congr 1
        omega
      rw [hde, List.take_append_drop]
    · simp only [splitLoop, if_neg hs, List.flatten_nil]
      rw [List.drop_eq_nil_of_le (by omega)]

theorem splitLoop_part_le (text : List Char) (maxLength : Nat) :
    ∀ fuel start p, p ∈ splitLoop text maxLength fuel start → p.length ≤ maxLength + 1 := by
  intro fuel
  induction fuel with
  | zero => intro start p h; simp [splitLoop] at h
  | succ fuel ih =>
    intro start p h
    by_cases hs : start < text.length
    · simp only [splitLoop, if_pos hs] at h
      rcases List.mem_cons.mp h with h | h
      · subst h
        have hle := splitEnd_le text maxLength start
        calc ((text.drop start).take (splitEnd text maxLength start - start)).length
            ≤ splitEnd text maxLength start - start := by
              rw [List.length_take]; omega
          _ ≤ maxLength + 1 := by omega
      · exact ih _ _ h
    · simp only [splitLoop, if_neg hs] at h
      cases h

theorem splitLoop_len_pos (text : List Char) (maxLength fuel start : Nat)
    (hf : 1 ≤ fuel) (hs : start < text.length) :
    1 ≤ (splitLoop text maxLength fuel start).length := by
  obtain ⟨f, rfl⟩ : ∃ f, fuel = f + 1 := ⟨fuel - 1, by omega⟩
  simp [splitLoop, hs]

/-- C4 (amended): for limit `max_length ≥ 1`, segmentation loses and
duplicates no character (the concatenation of the parts is exactly the
input) and every part has length at most `max_length + 1` — not
`max_length` as claimed: when a separator sits exactly at the window
boundary index, the break lands one past the limit, producing a part of
`max_length + 1` characters.  Any text longer than `max_length + 1` (in
particular a 2000-character body under limit 1500) yields at least two
parts. -/
theorem c4_split_long_text :
    ∀ (text : List Char) (maxLength : Nat), 1 ≤ maxLength →
      (split_long_text text maxLength).flatten = text
      ∧ (∀ p ∈ split_long_text text maxLength, p.length ≤ maxLength + 1)
      ∧ (maxLength + 2 ≤ text.length → 2 ≤ (split_long_text text maxLength).length) := by
  intro text maxLength hm
  by_cases hle : text.length ≤ maxLength
  · rw [split_long_text, if_pos hle]
    refine ⟨by simp, ?_, ?_⟩
    · intro p hp
      rcases List.mem_cons.mp hp with h | h
      · subst h; omega
      · cases h
    · intro h2; omega
  · rw [split_long_text, if_neg hle]
    refine ⟨?_, ?_, ?_⟩
    · have := splitLoop_flatten text maxLength hm (text.length + 1) 0 (by omega)
      simpa using this
    · intro p hp
      exact splitLoop_part_le text maxLength _ _ p hp
    · intro h2
      have hs0 : 0 < text.length := by omega
      simp only [splitLoop, if_pos hs0, List.length_cons]
      have hend : splitEnd text maxLength 0 < text.length := by
        have := splitEnd_le text maxLength 0
        omega
      have := splitLoop_len_pos text maxLength text.length (splitEnd text maxLength 0)
        (by omega) hend
      omega

/-- Witness for C4's theorem at a concrete input. -/
theorem c4_split_long_text_witness :
    (split_long_text ['a', 'b', 'c'] 1).flatten = ['a', 'b', 'c'] :=
  (c4_split_long_text ['a', 'b', 'c'] 1 (by decide)).1

theorem c4text_length : c4text.length = 2000 := by
  rw [c4text, List.length_append, List.length_replicate, List.length_cons,
    List.length_replicate]

theorem findSplit_hit (text : List Char) (start sp : Nat) (h0 : 0 < sp) (h1 : ¬ sp ≤ start)
    (h2 : (sp < text.length && isSplitChar (text.getD sp ' ')) = true) :
    findSplit text start sp = some sp := by
  obtain ⟨k, rfl⟩ : ∃ k, sp = k + 1 := ⟨sp - 1, by omega⟩
  simp only [findSplit]
  rw [if_neg h1, if_pos h2]

theorem c4text_getD : c4text.getD 1500 ' ' = ' ' := by
  rw [c4text, List.getD_append_right _ _ _ _ (le_of_eq (List.length_replicate 1500 'a'))]
  rw [List.length_replicate]
  norm_num

/-- C4 counterexample: with limit 1500 and `c4text` as input the first
emitted part has 1501 characters — the scan may select the separator
sitting exactly at the window boundary index, so "parts each no longer
than 1500" is false. -/
theorem c4_counterexample :
    ¬ (∀ p ∈ split_long_text c4text 1500, p.length ≤ 1500) := by
  intro hall
  have hfs : findSplit c4text 0 1500 = some 1500 := by
    refine findSplit_hit c4text 0 1500 (by norm_num) (by norm_num) ?_
    rw [c4text_getD, c4text_length]
    decide
  have hend : splitEnd c4text 1500 0 = 1501 := by
    unfold splitEnd
    rw [Nat.zero_add]
    rw [if_pos (by rw [c4text_length]; norm_num)]
    rw [hfs]
  have hparts : split_long_text c4text 1500
      = ((c4text.drop 0).take (splitEnd c4text 1500 0 - 0))
          :: splitLoop c4text 1500 2000 (splitEnd c4text 1500 0) := by
    rw [split_long_text, if_neg (by rw [c4text_length]; norm_num)]
    rw [c4text_length]
    rw [splitLoop]
    rw [if_pos (by rw [c4text_length]; norm_num)]
  have hmem : (c4text.drop 0).take (splitEnd c4text 1500 0 - 0)
      ∈ split_long_text c4text 1500 := by
    rw [hparts]; exact List.mem_cons_self _ _
  have hlen := hall _ hmem
  rw [hend] at hlen
  simp only [Nat.sub_zero, List.drop_zero, List.length_take, c4text_length] at hlen
  omega

/-- C2: media-type determination is a pure function of
`(url, contentType)` with the claimed precedence: a content type
containing `video` wins; else one containing `image`; else the URL path's
lower-cased extension decides (`.mp4/.mov/.avi/.mkv/.webm` → video,
anything else → image), with the MIME guess consulted only when the
extension is absent (a guess containing `video` yields video, any other
guess outcome yields image here since the empty extension is not in the
video list); and the claim's four concrete examples hold. -/
theorem c2_determine_media_type :
    (∀ url ct, containsSub "video" ct = true →
      determine_media_type url ct = [Media.video url])
    ∧ (∀ url ct, containsSub "video" ct = false → containsSub "image" ct = true →
      determine_media_type url ct = [Media.image url])
    ∧ (∀ url ct, containsSub "video" ct = false → containsSub "image" ct = false →
      url_extension url ≠ "" →
      determine_media_type url ct =
        (if videoExtensions.contains (url_extension url) then [Media.video url]
         else [Media.image url]))
    ∧ (∀ url ct g, containsSub "video" ct = false → containsSub "image" ct = false →
      url_extension url = "" → mime_guess_type url = some g →
      determine_media_type url ct =
        (if containsSub "video" g then [Media.video url] else [Media.image url]))
    ∧ (∀ url ct, containsSub "video" ct = false → containsSub "image" ct = false →
      url_extension url = "" → mime_guess_type url = none →
      determine_media_type url ct = [Media.image url])
    ∧ determine_media_type "a.mp4" "" = [Media.video "a.mp4"]
    ∧ determine_media_type "a.jpg" "" = [Media.image "a.jpg"]
    ∧ determine_media_type "a" "image/png" = [Media.image "a"]
    ∧ determine_media_type "a" "" = [Media.image "a"] := by
  refine ⟨?_, ?_, ?_, ?_, ?_, by decide, by decide, by decide, by decide⟩
  · intro url ct h1
    unfold determine_media_type
    rw [if_pos h1]
  · intro url ct h1 h2
    unfold determine_media_type
    rw [if_neg (by simp [h1]), if_pos h2]
  · intro url ct h1 h2 h3
    unfold determine_media_type
    rw [if_neg (by simp [h1]), if_neg (by simp [h2])]
    have hgs : mimeGuessStep url (url_extension url) = none := by
      unfold mimeGuessStep
      rw [if_neg h3]
    rw [hgs]
    show extensionStep url (url_extension url) = _
    unfold extensionStep
    rfl
  · intro url ct g h1 h2 h3 hg
    unfold determine_media_type
    rw [if_neg (by simp [h1]), if_neg (by simp [h2])]
    have hgs : mimeGuessStep url (url_extension url)
        = (if containsSub "video" g = true then some [Media.video url]
           else if containsSub "image" g = true then some [Media.image url]
           else none) := by
      unfold mimeGuessStep
      rw [if_pos h3, hg]
    by_cases hv : containsSub "video" g = true
    · rw [hgs, if_pos hv, if_pos hv]
    · rw [if_neg hv]
      by_cases hi : containsSub "image" g = true
      · rw [hgs, if_neg hv, if_pos hi]
      · rw [hgs, if_neg hv, if_neg hi]
        show extensionStep url (url_extension url) = _
        unfold extensionStep
        rw [h3, if_neg (by decide)]
  · intro url ct h1 h2 h3 hg
    unfold determine_media_type
    rw [if_neg (by simp [h1]), if_neg (by simp [h2])]
    have hgs : mimeGuessStep url (url_extension url) = none := by
      unfold mimeGuessStep
      rw [if_pos h3, hg]
    rw [hgs]
    show extensionStep url (url_extension url) = _
    unfold extensionStep
    rw [h3, if_neg (by decide)]

/-- Witness for C2's theorem at concrete inputs: the content-type branches
applied to explicit arguments. -/
theorem c2_determine_media_type_witness :
    determine_media_type "x" "video/mp4" = [Media.video "x"]
    ∧ determine_media_type "x" "image/gif" = [Media.image "x"] :=
  ⟨c2_determine_media_type.1 "x" "video/mp4" (by decide),
    c2_determine_media_type.2.1 "x" "image/gif" (by decide) (by decide)⟩

/-- C1 counterexample: probing `http://u` gets HTTP 500, and
`add_api_or_url` stores the URL in the *text-API* list — the media-API
list stays empty; and when the probe raises a transport error nothing is
stored at all.  Both refute "the URL is stored into the media-API
category ... in all failure cases". -/
theorem c1_counterexample :
    (add_api_or_url w500 emptyRegistry "T" "http://u").1.api_list = []
    ∧ (add_api_or_url w500 emptyRegistry "T" "http://u").1.text_api_list
        = [("t", ["http://u"])]
    ∧ add_api_or_url wDown emptyRegistry "T" "http://u"
        = (emptyRegistry, false, AddOutcome.netError) := by
  refine ⟨by decide, by decide, by decide⟩

/-- C1 (amended): on a probe returning a non-200 status the URL is
appended to the *text-API* category (media-API and direct-URL maps
untouched) and the registry is persisted; on a transport error the
command reports a network error, stores nothing and persists nothing. -/
theorem c1_probe_failure_buckets :
    (∀ (w : World) (R : Registry) (t u : String) (r : HttpResp),
      w u = some r → r.status ≠ 200 →
      add_api_or_url w R t u =
        ({R with text_api_list := dictAppend R.text_api_list (pyLower t) u}, true,
          AddOutcome.addedText))
    ∧ (∀ (w : World) (R : Registry) (t u : String),
      w u = none → add_api_or_url w R t u = (R, false, AddOutcome.netError)) := by
  constructor
  · intro w R t u r hw hs
    simp only [add_api_or_url, hw]
    rw [if_neg hs]
  · intro w R t u hw
    simp only [add_api_or_url, hw]

/-- Witness for C1's theorem at concrete inputs. -/
theorem c1_probe_failure_buckets_witness :
    add_api_or_url w500 emptyRegistry "T2" "http://u"
      = ({emptyRegistry with
            text_api_list := dictAppend emptyRegistry.text_api_list (pyLower "T2") "http://u"},
          true, AddOutcome.addedText)
    ∧ add_api_or_url wDown emptyRegistry "T2" "http://u"
        = (emptyRegistry, false, AddOutcome.netError) :=
  ⟨c1_probe_failure_buckets.1 w500 emptyRegistry "T2" "http://u" ⟨500, "", none, ""⟩
      rfl (by decide),
    c1_probe_failure_buckets.2 wDown emptyRegistry "T2" "http://u" rfl⟩

/-! ## C6: out-of-range / unknown-trigger leaves the registry unchanged -/

/-- C6: for a registered trigger (matched in the source's category order)
whose list has length `len`, `modify` and `delete` with an index outside
`[1, len]` report the range error, return the registry unchanged (all
three maps) and do not persist; an unknown trigger reports not-found and
likewise changes nothing. -/
theorem c6_out_of_range_unchanged :
    ∀ (R : Registry) (t : String) (i : Int) (u : String),
      (lookupCat R (pyLower t) = none →
        modify_api_address R t i u = (R, false, OpOutcome.notFound)
        ∧ delete_api R t (some i) = (R, false, OpOutcome.notFound))
      ∧ (∀ l, lookupCat R (pyLower t) = some l →
        (i < 1 ∨ (l.length : Int) < i) →
        modify_api_address R t i u = (R, false, OpOutcome.outOfRange)
        ∧ delete_api R t (some i) = (R, false, OpOutcome.outOfRange)) := by
  intro R t i u
  by_cases h1 : hasK R.api_list (pyLower t) = true
  · have hlc : lookupCat R (pyLower t) = some (getK R.api_list (pyLower t)) := by
      unfold lookupCat matchCat
      rw [if_pos h1]
      rfl
    constructor
    · intro hnone
      rw [hlc] at hnone
      cases hnone
    · intro l hl hi
      rw [hlc] at hl
      have hleq : l = getK R.api_list (pyLower t) := by
        cases hl
        rfl
      subst hleq
      have hcond : ¬(1 ≤ i ∧ i ≤ ((getK R.api_list (pyLower t)).length : Int)) := by
        rintro ⟨ha, hb⟩
        rcases hi with hi | hi <;> omega
      constructor
      · simp only [modify_api_address]
        rw [if_pos h1, if_neg hcond]
      · have hdf : deleteFromCat R.api_list (pyLower t) (some i) = none := by
          simp only [deleteFromCat]
          rw [if_neg hcond]
        simp only [delete_api]
        rw [if_pos h1, hdf]
  · by_cases h2 : hasK R.direct_url_list (pyLower t) = true
    · have hlc : lookupCat R (pyLower t) = some (getK R.direct_url_list (pyLower t)) := by
        unfold lookupCat matchCat
        rw [if_neg h1, if_pos h2]
        rfl
      constructor
      · intro hnone
        rw [hlc] at hnone
        cases hnone
      · intro l hl hi
        rw [hlc] at hl
        have hleq : l = getK R.direct_url_list (pyLower t) := by
          cases hl
          rfl
        subst hleq
        have hcond : ¬(1 ≤ i ∧ i ≤ ((getK R.direct_url_list (pyLower t)).length : Int)) := by
          rintro ⟨ha, hb⟩
          rcases hi with hi | hi <;> omega
        constructor
        · simp only [modify_api_address]
          rw [if_neg h1, if_pos h2, if_neg hcond]
        · have hdf : deleteFromCat R.direct_url_list (pyLower t) (some i) = none := by
            simp only [deleteFromCat]
            rw [if_neg hcond]
          simp only [delete_api]
          rw [if_neg h1, if_pos h2, hdf]
    · by_cases h3 : hasK R.text_api_list (pyLower t) = true
      · have hlc : lookupCat R (pyLower t) = some (getK R.text_api_list (pyLower t)) := by
          unfold lookupCat matchCat
          rw [if_neg h1, if_neg h2, if_pos h3]
          rfl
        constructor
        · intro hnone
          rw [hlc] at hnone
          cases hnone
        · intro l hl hi
          rw [hlc] at hl
          have hleq : l = getK R.text_api_list (pyLower t) := by
            cases hl
            rfl
          subst hleq
          have hcond : ¬(1 ≤ i ∧ i ≤ ((getK R.text_api_list (pyLower t)).length : Int)) := by
            rintro ⟨ha, hb⟩
            rcases hi with hi | hi <;> omega
          constructor
          · simp only [modify_api_address]
            rw [if_neg h1, if_neg h2, if_pos h3, if_neg hcond]
          · have hdf : deleteFromCat R.text_api_list (pyLower t) (some i) = none := by
              simp only [deleteFromCat]
              rw [if_neg hcond]
            simp only [delete_api]
            rw [if_neg h1, if_neg h2, if_pos h3, hdf]
      · have hlc : lookupCat R (pyLower t) = none := by
          unfold lookupCat matchCat
          rw [if_neg h1, if_neg h2, if_neg h3]
        constructor
        · intro _
          constructor
          · simp only [modify_api_address]
            rw [if_neg h1, if_neg h2, if_neg h3]
          · simp only [delete_api]
            rw [if_neg h1, if_neg h2, if_neg h3]
        · intro l hl hi
          rw [hlc] at hl
          cases hl

/-- Witness for C6's theorem at concrete inputs. -/
theorem c6_out_of_range_unchanged_witness :
    modify_api_address regOne "T" 5 "u2" = (regOne, false, OpOutcome.outOfRange)
    ∧ delete_api regOne "T" (some 5) = (regOne, false, OpOutcome.outOfRange)
    ∧ modify_api_address regOne "zz" 1 "u2" = (regOne, false, OpOutcome.notFound) :=
  ⟨((c6_out_of_range_unchanged regOne "T" 5 "u2").2 ["u1"] (by decide) (by decide)).1,
    ((c6_out_of_range_unchanged regOne "T" 5 "u2").2 ["u1"] (by decide) (by decide)).2,
    ((c6_out_of_range_unchanged regOne "zz" 1 "u2").1 (by decide)).1⟩

/-! ## C7: delete-by-index semantics -/

theorem matchCat_some_api (R : Registry) (t : String)
    (h : matchCat R t = some Cat.api) : hasK R.api_list t = true := by
  by_cases h1 : hasK R.api_list t = true
  · exact h1
  · exfalso
    unfold matchCat at h
    rw [if_neg h1] at h
    by_cases h2 : hasK R.direct_url_list t = true
    · rw [if_pos h2] at h
      simp at h
    · rw [if_neg h2] at h
      by_cases h3 : hasK R.text_api_list t = true
      · rw [if_pos h3] at h
        simp at h
      · rw [if_neg h3] at h
        simp at h

theorem matchCat_some_direct (R : Registry) (t : String)
    (h : matchCat R t = some Cat.direct) :
    hasK R.api_list t = false ∧ hasK R.direct_url_list t = true := by
  unfold matchCat at h
  by_cases h1 : hasK R.api_list t = true
  · rw [if_pos h1] at h
    simp at h
  · rw [if_neg h1] at h
    have h1' : hasK R.api_list t = false := by simpa using h1
    by_cases h2 : hasK R.direct_url_list t = true
    · exact ⟨h1', h2⟩
    · exfalso
      rw [if_neg h2] at h
      by_cases h3 : hasK R.text_api_list t = true
      · rw [if_pos h3] at h
        simp at h
      · rw [if_neg h3] at h
        simp at h

theorem matchCat_some_text (R : Registry) (t : String)
    (h : matchCat R t = some Cat.text) :
    hasK R.api_list t = false ∧ hasK R.direct_url_list t = false
      ∧ hasK R.text_api_list t = true := by
  unfold matchCat at h
  by_cases h1 : hasK R.api_list t = true
  · rw [if_pos h1] at h
    simp at h
  · rw [if_neg h1] at h
    have h1' : hasK R.api_list t = false := by simpa using h1
    by_cases h2 : hasK R.direct_url_list t = true
    · rw [if_pos h2] at h
      simp at h
    · rw [if_neg h2] at h
      have h2' : hasK R.direct_url_list t = false := by simpa using h2
      by_cases h3 : hasK R.text_api_list t = true
      · exact ⟨h1', h2', h3⟩
      · exfalso
        rw [if_neg h3] at h
        simp at h

theorem mem_setK (m : List (String × List String)) (k : String) (v : List String)
    (kv : String × List String) (h : kv ∈ setK m k v) : kv.2 = v ∨ kv ∈ m := by
  unfold setK at h
  rcases List.mem_map.mp h with ⟨kv0, hkv0, heq⟩
  by_cases hb : (kv0.1 == k) = true
  · rw [if_pos hb] at heq
    left
    rw [← heq]
  · rw [if_neg hb] at heq
    right
    rw [← heq]
    exact hkv0

theorem mem_delK (m : List (String × List String)) (k : String)
    (kv : String × List String) (h : kv ∈ delK m k) : kv ∈ m :=
  List.mem_of_mem_filter h

theorem hasK_delK (m : List (String × List String)) (k : String) :
    hasK (delK m k) k = false := by
  rw [hasK, List.any_eq_false]
  intro x hx
  have hf := (List.mem_filter.mp hx).2
  simp at hf
  simp [hf]

theorem deleteFromCat_nonempty (m : List (String × List String)) (t : String)
    (idx : Option Int) (m2 : List (String × List String))
    (h : deleteFromCat m t idx = some m2)
    (hne : ∀ kv ∈ m, kv.2 ≠ ([] : List String)) :
    ∀ kv ∈ m2, kv.2 ≠ ([] : List String) := by
  cases idx with
  | none =>
    simp only [deleteFromCat] at h
    cases h
    intro kv hkv
    exact hne kv (mem_delK m t kv hkv)
  | some i =>
    simp only [deleteFromCat] at h
    by_cases hc : 1 ≤ i ∧ i ≤ ((getK m t).length : Int)
    · rw [if_pos hc] at h
      cases h
      by_cases he : ((getK m t).eraseIdx (i - 1).toNat).isEmpty = true
      · rw [if_pos he]
        intro kv hkv
        exact hne kv (mem_delK m t kv hkv)
      · rw [if_neg he]
        intro kv hkv
        rcases mem_setK m t _ kv hkv with hkv | hkv
        · rw [hkv]
          simpa using he
        · exact hne kv hkv
    · rw [if_neg hc] at h
      cases h

/-- C7: deleting with a valid 1-based index pops exactly that entry of the
matched category's list (`eraseIdx`, i.e. the prefix and suffix are kept
in order), removes the trigger key entirely when the list becomes empty
(in particular when it was the trigger's only entry), leaves the other two
category maps untouched, reports success and persists; and any delete
preserves the invariant that every per-trigger list in the registry is
non-empty. -/
theorem c7_delete_by_index :
    (∀ (R : Registry) (t : String) (i : Int) (c : Cat),
      matchCat R (pyLower t) = some c →
      1 ≤ i → i ≤ ((getK (catMap R c) (pyLower t)).length : Int) →
      (delete_api R t (some i)).2 = (true, OpOutcome.ok)
      ∧ catMap (delete_api R t (some i)).1 c =
          (if ((getK (catMap R c) (pyLower t)).eraseIdx (i - 1).toNat).isEmpty = true
           then delK (catMap R c) (pyLower t)
           else setK (catMap R c) (pyLower t)
             ((getK (catMap R c) (pyLower t)).eraseIdx (i - 1).toNat))
      ∧ (∀ c2, c2 ≠ c → catMap (delete_api R t (some i)).1 c2 = catMap R c2)
      ∧ hasK (delK (catMap R c) (pyLower t)) (pyLower t) = false
      ∧ (getK (catMap R c) (pyLower t)).eraseIdx (i - 1).toNat
          = (getK (catMap R c) (pyLower t)).take (i - 1).toNat
            ++ (getK (catMap R c) (pyLower t)).drop ((i - 1).toNat + 1))
    ∧ (∀ (R : Registry) (t : String) (idx : Option Int),
      allNonempty R → allNonempty (delete_api R t idx).1) := by
  constructor
  · intro R t i c hmc hi1 hi2
    cases c with
    | api =>
      have h1 := matchCat_some_api R (pyLower t) hmc
      simp only [catMap] at hi2 ⊢
      have hdf : deleteFromCat R.api_list (pyLower t) (some i)
          = some (if ((getK R.api_list (pyLower t)).eraseIdx (i - 1).toNat).isEmpty = true
                  then delK R.api_list (pyLower t)
                  else setK R.api_list (pyLower t)
                    ((getK R.api_list (pyLower t)).eraseIdx (i - 1).toNat)) := by
        simp only [deleteFromCat]
        rw [if_pos ⟨hi1, hi2⟩]
      have hda : delete_api R t (some i)
          = ({R with api_list :=
              (if ((getK R.api_list (pyLower t)).eraseIdx (i - 1).toNat).isEmpty = true
               then delK R.api_list (pyLower t)
               else setK R.api_list (pyLower t)
                 ((getK R.api_list (pyLower t)).eraseIdx (i - 1).toNat))}, true,
              OpOutcome.ok) := by
        simp only [delete_api]
        rw [if_pos h1, hdf]
      refine ⟨by rw [hda], by rw [hda], ?_, hasK_delK _ _,
        List.eraseIdx_eq_take_drop_succ _ _⟩
      intro c2 hne
      rw [hda]
      cases c2 with
      | api => exact absurd rfl hne
      | direct => rfl
      | text => rfl
    | direct =>
      obtain ⟨h1, h2⟩ := matchCat_some_direct R (pyLower t) hmc
      simp only [catMap] at hi2 ⊢
      have hdf : deleteFromCat R.direct_url_list (pyLower t) (some i)
          = some (if ((getK R.direct_url_list (pyLower t)).eraseIdx (i - 1).toNat).isEmpty = true
                  then delK R.direct_url_list (pyLower t)
                  else setK R.direct_url_list (pyLower t)
                    ((getK R.direct_url_list (pyLower t)).eraseIdx (i - 1).toNat)) := by
        simp only [deleteFromCat]
        rw [if_pos ⟨hi1, hi2⟩]
      have hda : delete_api R t (some i)
          = ({R with direct_url_list :=
              (if ((getK R.direct_url_list (pyLower t)).eraseIdx (i - 1).toNat).isEmpty = true
               then delK R.direct_url_list (pyLower t)
               else setK R.direct_url_list (pyLower t)
                 ((getK R.direct_url_list (pyLower t)).eraseIdx (i - 1).toNat))}, true,
              OpOutcome.ok) := by
        simp only [delete_api]
        rw [if_neg (by rw [h1]; decide), if_pos h2, hdf]
      refine ⟨by rw [hda], by rw [hda], ?_, hasK_delK _ _,
        List.eraseIdx_eq_take_drop_succ _ _⟩
      intro c2 hne
      rw [hda]
      cases c2 with
      | api => rfl
      | direct => exact absurd rfl hne
      | text => rfl
    | text =>
      obtain ⟨h1, h2, h3⟩ := matchCat_some_text R (pyLower t) hmc
      simp only [catMap] at hi2 ⊢
      have hdf : deleteFromCat R.text_api_list (pyLower t) (some i)
          = some (if ((getK R.text_api_list (pyLower t)).eraseIdx (i - 1).toNat).isEmpty = true
                  then delK R.text_api_list (pyLower t)
                  else setK R.text_api_list (pyLower t)
                    ((getK R.text_api_list (pyLower t)).eraseIdx (i - 1).toNat)) := by
        simp only [deleteFromCat]
        rw [if_pos ⟨hi1, hi2⟩]
      have hda : delete_api R t (some i)
          = ({R with text_api_list :=
              (if ((getK R.text_api_list (pyLower t)).eraseIdx (i - 1).toNat).isEmpty = true
               then delK R.text_api_list (pyLower t)
               else setK R.text_api_list (pyLower t)
                 ((getK R.text_api_list (pyLower t)).eraseIdx (i - 1).toNat))}, true,
              OpOutcome.ok) := by
        simp only [delete_api]
        rw [if_neg (by rw [h1]; decide), if_neg (by rw [h2]; decide), if_pos h3, hdf]
      refine ⟨by rw [hda], by rw [hda], ?_, hasK_delK _ _,
        List.eraseIdx_eq_take_drop_succ _ _⟩
      intro c2 hne
      rw [hda]
      cases c2 with
      | api => rfl
      | direct => rfl
      | text => exact absurd rfl hne
  · intro R t idx hne
    by_cases h1 : hasK R.api_list (pyLower t) = true
    · simp only [delete_api]
      rw [if_pos h1]
      cases hdf : deleteFromCat R.api_list (pyLower t) idx with
      | none => exact hne
      | some m2 =>
        have hm2 := deleteFromCat_nonempty R.api_list (pyLower t) idx m2 hdf hne.1
        exact ⟨hm2, hne.2.1, hne.2.2⟩
    · by_cases h2 : hasK R.direct_url_list (pyLower t) = true
      · simp only [delete_api]
        rw [if_neg h1, if_pos h2]
        cases hdf : deleteFromCat R.direct_url_list (pyLower t) idx with
        | none => exact hne
        | some m2 =>
          have hm2 := deleteFromCat_nonempty R.direct_url_list (pyLower t) idx m2 hdf hne.2.1
          exact ⟨hne.1, hm2, hne.2.2⟩
      · by_cases h3 : hasK R.text_api_list (pyLower t) = true
        · simp only [delete_api]
          rw [if_neg h1, if_neg h2, if_pos h3]
          cases hdf : deleteFromCat R.text_api_list (pyLower t) idx with
          | none => exact hne
          | some m2 =>
            have hm2 := deleteFromCat_nonempty R.text_api_list (pyLower t) idx m2 hdf hne.2.2
            exact ⟨hne.1, hne.2.1, hm2⟩
        · simp only [delete_api]
          rw [if_neg h1, if_neg h2, if_neg h3]
          exact hne

/-- Witness for C7's theorem at concrete inputs: deleting the only entry
of `regOne`'s trigger, and the non-emptiness invariant on it. -/
theorem c7_delete_by_index_witness :
    (delete_api regOne "t" (some 1)).2 = (true, OpOutcome.ok)
    ∧ allNonempty (delete_api regOne "t" (some 2)).1 := by
  constructor
  · exact (c7_delete_by_index.1 regOne "t" 1 Cat.api (by decide) (by decide) (by decide)).1
  · apply c7_delete_by_index.2 regOne "t" (some 2)
    refine ⟨?_, ?_, ?_⟩
    · intro kv hkv
      rcases List.mem_singleton.mp hkv with rfl
      decide
    · intro kv hkv
      cases hkv
    · intro kv hkv
      cases hkv

/-- C5 counterexample: with `count = 1` and two resolved chains (possible
because one media-API call can return several URLs), the standalone branch
sends only `media_chains[:1]` — the second resolved item is dropped, so
"sends each resolved item as its own standalone reply" is false. -/
theorem c5_counterexample :
    view_picture_package "AstrBot" 1 [chA, chB] = SendResult.standalone [chA]
    ∧ SendResult.standalone [chA] ≠ SendResult.standalone [chA, chB] :=
  ⟨by decide, by decide⟩

theorem labelNodes_map_snd (botId : String) :
    ∀ (i : Nat) (l : List MediaChain), (labelNodes botId i l).map Prod.snd = l := by
  intro i l
  induction l generalizing i with
  | nil => rfl
  | cons c rest ih =>
    simp only [labelNodes, List.map_cons, ih]

/-- C5 (amended): with at least one resolved chain, the result is a single
grouped message containing *all* resolved chains (labelled sequentially by
media kind) exactly when `count > 2` or more than 2 chains resolved;
otherwise the first `count` chains are sent as standalone replies in order
(chains beyond the requested count are dropped — with `count = 2` both
resolved items are sent standalone, as the claim's example states). -/
theorem c5_view_picture_packaging :
    ∀ (botId : String) (count : Nat) (chains : List MediaChain), chains ≠ [] →
      ((2 < count ∨ 2 < chains.length) →
        view_picture_package botId count chains
          = SendResult.grouped (labelNodes botId 1 chains)
        ∧ (labelNodes botId 1 chains).map Prod.snd = chains)
      ∧ (count ≤ 2 → chains.length ≤ 2 →
        view_picture_package botId count chains
          = SendResult.standalone (chains.take count)) := by
  intro botId count chains hne
  have hni : ¬(chains.isEmpty = true) := by
    simpa using hne
  constructor
  · intro hcond
    constructor
    · unfold view_picture_package
      rw [if_neg hni, if_pos hcond,
        List.take_of_length_le (le_max_right count chains.length)]
    · exact labelNodes_map_snd botId 1 chains
  · intro hc hl
    unfold view_picture_package
    rw [if_neg hni, if_neg (by rintro (h | h) <;> omega)]

/-- Witness for C5's theorem at concrete inputs. -/
theorem c5_view_picture_packaging_witness :
    view_picture_package "AstrBot" 3 [chA]
      = SendResult.grouped (labelNodes "AstrBot" 1 [chA])
    ∧ view_picture_package "AstrBot" 2 [chA, chB]
      = SendResult.standalone ([chA, chB].take 2) :=
  ⟨((c5_view_picture_packaging "AstrBot" 3 [chA] (by decide)).1 (by omega)).1,
    (c5_view_picture_packaging "AstrBot" 2 [chA, chB] (by decide)).2 (by omega) (by decide)⟩

/-- C8 counterexample: the API lists candidates `http://a` (which resolves
to an image) and `http://b`.  When `http://b`'s follow-up GET raises a
transport error the whole call returns zero items — the already-resolved
`http://a` is *not* emitted, refuting "the failure of any single
candidate's follow-up GET (non-200 or transport error) only drops that
candidate".  Only a non-200 status is dropped individually, as the second
conjunct shows. -/
theorem c8_counterexample :
    fetch_media_from_api true w8err "http://api" = []
    ∧ fetch_media_from_api true w8nf "http://api" = [[Media.image "http://a"]] :=
  ⟨by decide, by decide⟩

/-- C8 (amended): a non-200 initial API fetch yields zero items; and when
no candidate's follow-up GET raises a transport error, the pipeline never
fails wholesale — it returns exactly the chains of the candidates whose
follow-up answered 200, in order (a non-200 follow-up only drops its own
candidate).  A transport error on any candidate, by contrast, makes the
whole call return zero items (see the counterexample). -/
theorem c8_media_api_resilience :
    (∀ (w : World) (url : String) (r : HttpResp),
      w url = some r → r.status ≠ 200 → fetch_media_from_api true w url = [])
    ∧ (∀ (w : World) (ss : List String),
      (∀ s ∈ ss, (strStarts s "http://" || strStarts s "https://") = true →
        (w s).isSome = true) →
      resolveCandidates w (ss.map Json.str) = .ok (ss.filterMap (resolveOne w))) := by
  constructor
  · intro w url r hw hs
    simp [fetch_media_from_api, hw, hs]
  · intro w ss
    induction ss with
    | nil => intro _; rfl
    | cons s rest ih =>
      intro h
      have hrest := ih (fun x hx => h x (List.mem_cons_of_mem s hx))
      simp only [List.map_cons, List.filterMap_cons]
      by_cases hp : (strStarts s "http://" || strStarts s "https://") = true
      · cases hw : w s with
        | none =>
          exfalso
          have := h s (List.mem_cons_self s rest) hp
          rw [hw] at this
          simp at this
        | some r =>
          by_cases hst : r.status ≠ 200
          · have hl : resolveCandidates w (Json.str s :: rest.map Json.str)
                = resolveCandidates w (rest.map Json.str) := by
              simp only [resolveCandidates, hw]
              rw [if_pos hp, if_pos hst]
            have hr : resolveOne w s = none := by
              simp only [resolveOne, hw]
              rw [if_pos hp, if_pos hst]
            rw [hl, hr, hrest]
          · have hl : resolveCandidates w (Json.str s :: rest.map Json.str)
                = Except.ok (determine_media_type s (pyLower r.contentType)
                    :: rest.filterMap (resolveOne w)) := by
              simp only [resolveCandidates, hw]
              rw [if_pos hp, if_neg hst, hrest]
              rfl
            have hr : resolveOne w s
                = some (determine_media_type s (pyLower r.contentType)) := by
              simp only [resolveOne, hw]
              rw [if_pos hp, if_neg hst]
            rw [hl, hr]
      · have hl : resolveCandidates w (Json.str s :: rest.map Json.str)
            = resolveCandidates w (rest.map Json.str) := by
          simp only [resolveCandidates]
          rw [if_neg hp]
        have hr : resolveOne w s = none := by
          simp only [resolveOne]
          rw [if_neg hp]
        rw [hl, hr, hrest]

/-- Witness for C8's theorem at concrete inputs. -/
theorem c8_media_api_resilience_witness :
    fetch_media_from_api true w8nf "http://b" = []
    ∧ resolveCandidates w8nf (["http://a", "http://b"].map Json.str)
      = .ok (["http://a", "http://b"].filterMap (resolveOne w8nf)) :=
  ⟨c8_media_api_resilience.1 w8nf "http://b" ⟨404, "", none, ""⟩ rfl (by decide),
    c8_media_api_resilience.2 w8nf ["http://a", "http://b"] (by decide)⟩

theorem loadCatJson_catToJson (m : List (String × List String)) :
    loadCatJson (catToJson m) = some (toJsonVals m) := by
  unfold loadCatJson catToJson toJsonVals
  refine congrArg some ?_
  rw [List.map_map]
  rfl

/-- C9: saving a registry and loading the resulting document reproduces an
equivalent registry — the same trigger keys in each of the three category
maps, in the same order, each bound to the same ordered URL list (URLs
re-read as JSON strings); keys are stored verbatim, so the lower-cased
keys produced at registration stay lower-cased.  Loading a legacy document
whose category value maps a trigger to a single string yields a
one-element list for that trigger. -/
theorem c9_save_load_roundtrip :
    (∀ R : Registry,
      load_api_config (some (some (save_api_config R)))
        = some ⟨toJsonVals R.api_list, toJsonVals R.direct_url_list,
            toJsonVals R.text_api_list⟩)
    ∧ (∀ k v : String,
      load_api_config (some (some (Json.obj [("api_list", Json.obj [(k, Json.str v)])])))
        = some ⟨[(k, [Json.str v])], [], []⟩) := by
  constructor
  · intro R
    have h1 : loadCat (save_api_config R) "api_list" = some (toJsonVals R.api_list) := by
      show loadCatJson (catToJson R.api_list) = _
      exact loadCatJson_catToJson R.api_list
    have h2 : loadCat (save_api_config R) "direct_url_list"
        = some (toJsonVals R.direct_url_list) := by
      show loadCatJson (catToJson R.direct_url_list) = _
      exact loadCatJson_catToJson R.direct_url_list
    have h3 : loadCat (save_api_config R) "text_api_list"
        = some (toJsonVals R.text_api_list) := by
      show loadCatJson (catToJson R.text_api_list) = _
      exact loadCatJson_catToJson R.text_api_list
    show loadData (save_api_config R) = _
    unfold loadData
    rw [h1, h2, h3]
  · intro k v
    rfl

/-- C10: a persisted file with malformed JSON makes `load_api_config`
reset all three category maps to empty — exactly the state produced when
the file does not exist. -/
theorem c10_malformed_config_resets :
    load_api_config (some none) = some ⟨[], [], []⟩
    ∧ load_api_config none = some ⟨[], [], []⟩ :=
  ⟨rfl, rfl⟩
